import Mathlib

/-!
Verification of the FlexSPI W25Q128JV serial NOR flash driver
(`src/drivers/flash/flash_mcux_flexspi_w25q128jv.c`).

The driver's bus activity is embedded shallowly: every call to the
controller collaborator (`memc_flexspi_transfer`, `memc_flexspi_reset`)
is recorded as an `Event` in an ordered trace.  The controller itself is
abstracted as an environment `Env` that yields, for the `k`-th transfer
issued by the driver, the transfer's return code and - for status reads -
the register value the transfer deposits in the caller's buffer.  The
driver functions take a cursor `n` (how many transfers have been issued
so far) and return `some (ret, n', trace)` on termination, or `none`
when the unbounded busy-wait loop exceeds the modelling fuel.
-/

namespace Flash

/-- Page size in bytes.  Modelled from the spec: the constant
`SPI_NOR_PAGE_SIZE` is defined in `spi_nor.h`, which is not among the
sources; the spec fixes page_size = 256. -/
def SPI_NOR_PAGE_SIZE : Nat := 256

/-- Sector size in bytes.  Modelled from the spec: the constant
`SPI_NOR_SECTOR_SIZE` is defined in `spi_nor.h`, which is not among the
sources; the spec fixes sector_size = 4096. -/
def SPI_NOR_SECTOR_SIZE : Nat := 4096

/-- Block size in bytes.  Modelled from the spec: the constant
`SPI_NOR_BLOCK_SIZE` is defined in `spi_nor.h`, which is not among the
sources; the spec requires sector size to divide block size, and the
standard value for this part is 64 KiB. -/
def SPI_NOR_BLOCK_SIZE : Nat := 65536

/-- Errno value for invalid argument; the driver returns `-EINVAL`. -/
def EINVAL : Int := 22

/-- Errno value for an input/output error; the driver returns the
negated value on handshake failures. -/
def EIOval : Int := 5

/-- Errno value for a missing device, returned negated at bring-up when
the controller is not ready. -/
def ENODEV : Int := 19

/-- Outcome the controller produces for one transfer: the return code of
`memc_flexspi_transfer` and, for read transfers, the value the transfer
deposits in the caller-supplied buffer. -/
structure TransferResult where
  ret : Int
  status : Nat

/-- The controller collaborator, abstracted as the outcome of the `k`-th
transfer issued by the driver. -/
abbrev Env := Nat → TransferResult

/-- One primitive bus transaction, identified by the LUT sequence the
driver selects and the address/length arguments it passes. -/
inductive Transfer where
  | readId
  | readStatus1
  | readStatus2
  | writeStatus (size : Nat)
  | writeEnable
  | eraseSector (offset : Nat)
  | eraseBlock (offset : Nat)
  | eraseChip
  | pageProgram (offset : Nat) (len : Nat)
deriving DecidableEq

/-- One collaborator call recorded in the trace: a bus transfer or a
controller reset (`memc_flexspi_reset`). -/
inductive Event where
  | transfer (t : Transfer)
  | reset
deriving DecidableEq

/-- Shorthand for the event of a ReadStatus1 transfer. -/
def rsEv : Event := Event.transfer Transfer.readStatus1

/-- Embeds `flash_flexspi_nor_wait_bus_busy` (source lines 312-327): a
do-while loop that reads status register 1 and keeps polling while bit 0
is set; a failing read returns its error code immediately.  The extra
`fuel` argument bounds the number of polls only for the sake of the
embedding; exhausting it yields `none` (the C loop would still be
running). -/
def flash_flexspi_nor_wait_bus_busy (env : Env) : Nat → Nat → Option (Int × Nat × List Event)
  | 0, _ => none
  | fuel + 1, n =>
    let r := env n
    if r.ret ≠ 0 then some (r.ret, n + 1, [rsEv])
    else if r.status % 2 = 1 then
      match flash_flexspi_nor_wait_bus_busy env fuel (n + 1) with
      | none => none
      | some (ret, n', tr) => some (ret, n', rsEv :: tr)
    else some (0, n + 1, [rsEv])

/-- Characterization of the busy-wait loop: a terminating run consists of
`k` successful busy reads followed by one decisive read, the trace is
`k+1` ReadStatus1 transfers, and the result is zero exactly when the
decisive read succeeded with bit 0 clear, else the failing read's error
code. -/
theorem wait_bus_busy_shape (env : Env) :
    ∀ fuel n r n' tr,
      flash_flexspi_nor_wait_bus_busy env fuel n = some (r, n', tr) →
      ∃ k, k < fuel ∧
        (∀ j, j < k → (env (n + j)).ret = 0 ∧ (env (n + j)).status % 2 = 1) ∧
        n' = n + (k + 1) ∧
        tr = List.replicate (k + 1) rsEv ∧
        (((env (n + k)).ret = 0 ∧ r = 0 ∧ (env (n + k)).status % 2 = 0) ∨
          ((env (n + k)).ret ≠ 0 ∧ r = (env (n + k)).ret)) := by
  intro fuel
  induction fuel with
  | zero => intro n r n' tr h; simp [flash_flexspi_nor_wait_bus_busy] at h
  | succ fuel ih =>
    intro n r n' tr h
    unfold flash_flexspi_nor_wait_bus_busy at h
    by_cases hr : (env n).ret = 0
    case neg =>
      -- ret ≠ 0 : the failing read is returned immediately
      rw [if_pos hr] at h
      obtain ⟨h1, h2, h3⟩ : (env n).ret = r ∧ n + 1 = n' ∧ [rsEv] = tr := by
        simpa using h
      refine ⟨0, Nat.succ_pos _, by omega, by omega, by simp [← h3], Or.inr ?_⟩
      simp only [Nat.add_zero]
      exact ⟨hr, h1.symm⟩
    case pos =>
      rw [if_neg (by simp [hr])] at h
      by_cases hb : (env n).status % 2 = 1
      · -- bit 0 set : keep polling
        rw [if_pos hb] at h
        cases hw : flash_flexspi_nor_wait_bus_busy env fuel (n + 1) with
        | none => rw [hw] at h; simp at h
        | some v =>
          obtain ⟨r0, n0, tr0⟩ := v
          rw [hw] at h
          simp only [Option.some.injEq, Prod.mk.injEq] at h
          obtain ⟨hr0, hn0, htr0⟩ := h
          obtain ⟨k, hk, hbusy, hn', htr, hlast⟩ := ih (n + 1) r0 n0 tr0 hw
          refine ⟨k + 1, by omega, ?_, ?_, ?_, ?_⟩
          · intro j hj
            cases j with
            | zero => exact ⟨hr, hb⟩
            | succ j' =>
              have hj' := hbusy j' (by omega)
              have he : n + 1 + j' = n + (j' + 1) := by omega
              rw [he] at hj'
              exact hj'
          · omega
          · rw [← htr0, htr]; rfl
          · have he : n + 1 + k = n + (k + 1) := by omega
            rw [he] at hlast
            rw [← hr0]
            exact hlast
      · -- bit 0 clear : done
        rw [if_neg hb] at h
        obtain ⟨h1, h2, h3⟩ : (0 : Int) = r ∧ n + 1 = n' ∧ [rsEv] = tr := by
          simpa using h
        refine ⟨0, Nat.succ_pos _, by omega, by omega, by simp [← h3], Or.inl ?_⟩
        simp only [Nat.add_zero]
        refine ⟨hr, h1.symm, ?_⟩
        omega

/-- Chunk decomposition performed by the while loop of
`flash_flexspi_nor_write` (source lines 380-400): each iteration carves
`i = MIN(SPI_NOR_PAGE_SIZE - (offset % SPI_NOR_PAGE_SIZE), len)` bytes
starting at the current offset, then advances `offset` and shrinks `len`
by `i`.  The first argument is structural-recursion fuel; since every
chunk is at least one byte, `fuel = len` reproduces the loop exactly
(see `writeChunks`). -/
def writeChunksF : Nat → Nat → Nat → List (Nat × Nat)
  | 0, _, _ => []
  | fuel + 1, offset, len =>
    if len = 0 then []
    else
      let i := min (SPI_NOR_PAGE_SIZE - offset % SPI_NOR_PAGE_SIZE) len
      (offset, i) :: writeChunksF fuel (offset + i) (len - i)

/-- The list of `(chunk_start, chunk_len)` pairs the write loop programs,
in order. -/
def writeChunks (offset len : Nat) : List (Nat × Nat) :=
  writeChunksF len offset len

/-- Per-chunk body of the write loop (source lines 380-400): for each
chunk, issue write-enable, issue the page program at the chunk's offset
and length, busy-wait, and reset the controller; all transfer return
codes are discarded and the loop itself always reports 0. -/
def runWriteChunks (env : Env) (fuel : Nat) : List (Nat × Nat) → Nat → Option (Int × Nat × List Event)
  | [], n => some (0, n, [])
  | (o, l) :: rest, n =>
    match flash_flexspi_nor_wait_bus_busy env fuel (n + 2) with
    | none => none
    | some (_, n3, trW) =>
      match runWriteChunks env fuel rest n3 with
      | none => none
      | some (r, n4, tr) =>
        some (r, n4, Event.transfer Transfer.writeEnable ::
          Event.transfer (Transfer.pageProgram o l) :: (trW ++ Event.reset :: tr))

/-- Embeds `flash_flexspi_nor_write` (source lines 360-412): split the
request into page-bounded chunks and drive each one through the
write-enable / page-program / busy-wait / reset sequence.  The XIP
critical section, the optional staging buffer and the cache invalidation
touch no bus state and are not part of the trace. -/
def flash_flexspi_nor_write (env : Env) (fuel offset len n : Nat) : Option (Int × Nat × List Event) :=
  runWriteChunks env fuel (writeChunks offset len) n

/-- Loop body shared by the block-erase and sector-erase branches of
`flash_flexspi_nor_erase` (source lines 449-465): `count` iterations of
write-enable, erase primitive at the running offset, busy-wait, reset,
with the offset advancing by `stride`; transfer return codes are
discarded. -/
def eraseLoop (env : Env) (fuel : Nat) (mk : Nat → Transfer) (stride : Nat) :
    Nat → Nat → Nat → Option (Nat × List Event)
  | 0, _, n => some (n, [])
  | count + 1, offset, n =>
    match flash_flexspi_nor_wait_bus_busy env fuel (n + 2) with
    | none => none
    | some (_, n3, trW) =>
      match eraseLoop env fuel mk stride count (offset + stride) n3 with
      | none => none
      | some (n4, tr) =>
        some (n4, Event.transfer Transfer.writeEnable ::
          Event.transfer (mk offset) :: (trW ++ Event.reset :: tr))

/-- Embeds `flash_flexspi_nor_erase` (source lines 414-477): reject
requests that are not sector-aligned with `-EINVAL` before any bus
activity; then pick chip erase for `(0, flashSize KiB)`, block erase for
block-aligned requests, and sector erase otherwise.  `totalSize` stands
for `data->config.flashSize * KB(1)`. -/
def flash_flexspi_nor_erase (env : Env) (fuel totalSize offset size n : Nat) :
    Option (Int × Nat × List Event) :=
  if offset % SPI_NOR_SECTOR_SIZE ≠ 0 then some (-EINVAL, n, [])
  else if size % SPI_NOR_SECTOR_SIZE ≠ 0 then some (-EINVAL, n, [])
  else if offset = 0 ∧ size = totalSize then
    match flash_flexspi_nor_wait_bus_busy env fuel (n + 2) with
    | none => none
    | some (_, n3, trW) =>
      some (0, n3, Event.transfer Transfer.writeEnable ::
        Event.transfer Transfer.eraseChip :: (trW ++ [Event.reset]))
  else if offset % SPI_NOR_BLOCK_SIZE = 0 ∧ size % SPI_NOR_BLOCK_SIZE = 0 then
    match eraseLoop env fuel Transfer.eraseBlock SPI_NOR_BLOCK_SIZE
        (size / SPI_NOR_BLOCK_SIZE) offset n with
    | none => none
    | some (n', tr) => some (0, n', tr)
  else
    match eraseLoop env fuel Transfer.eraseSector SPI_NOR_SECTOR_SIZE
        (size / SPI_NOR_SECTOR_SIZE) offset n with
    | none => none
    | some (n', tr) => some (0, n', tr)

/-- Embeds `flash_flexspi_nor_write_status` (source lines 191-214): more
than two status registers are rejected with `-EINVAL` before any bus
activity; otherwise one write-status transfer is issued and its return
code is passed through. -/
def flash_flexspi_nor_write_status (env : Env) (size n : Nat) : Int × Nat × List Event :=
  if size > 2 then (-EINVAL, n, [])
  else ((env n).ret, n + 1, [Event.transfer (Transfer.writeStatus size)])

/-- Embeds `flash_flexspi_nor_enable_quad_mode` (source lines 329-348):
write-enable (return code discarded); write-status `[0x00, 0x02]` of
size 2, failing with `-EIO` if that transfer fails; busy-wait (return
discarded); read status register 2 (return discarded) and require the
value to be exactly 0x02, else fail with `-EIO`; busy-wait; reset. -/
def flash_flexspi_nor_enable_quad_mode (env : Env) (fuel n : Nat) :
    Option (Int × Nat × List Event) :=
  if (env (n + 1)).ret ≠ 0 then
    some (-EIOval, n + 2,
      [Event.transfer Transfer.writeEnable, Event.transfer (Transfer.writeStatus 2)])
  else
    match flash_flexspi_nor_wait_bus_busy env fuel (n + 2) with
    | none => none
    | some (_, n3, trW1) =>
      if (env n3).status ≠ 2 then
        some (-EIOval, n3 + 1, Event.transfer Transfer.writeEnable ::
          Event.transfer (Transfer.writeStatus 2) :: (trW1 ++
            [Event.transfer Transfer.readStatus2]))
      else
        match flash_flexspi_nor_wait_bus_busy env fuel (n3 + 1) with
        | none => none
        | some (_, n4, trW2) =>
          some (0, n4, Event.transfer Transfer.writeEnable ::
            Event.transfer (Transfer.writeStatus 2) :: (trW1 ++
              Event.transfer Transfer.readStatus2 :: (trW2 ++ [Event.reset])))

/-- Embeds `flash_flexspi_nor_init` (source lines 498-537): controller
readiness and device-configuration failures abort bring-up; then
busy-wait, reset, read the vendor id (failure is fatal), run the
quad-mode handshake (failure is fatal), busy-wait and reset.  The
controller-side `memc_flexspi_wait_bus_idle` call under XIP touches no
device state and is not traced. -/
def flash_flexspi_nor_init (env : Env) (fuel : Nat) (controllerReady configOk : Bool)
    (n : Nat) : Option (Int × Nat × List Event) :=
  if ¬ controllerReady then some (-ENODEV, n, [])
  else if ¬ configOk then some (-EINVAL, n, [])
  else
    match flash_flexspi_nor_wait_bus_busy env fuel n with
    | none => none
    | some (_, n1, trW) =>
      if (env n1).ret ≠ 0 then
        some (-EIOval, n1 + 1, trW ++ [Event.reset, Event.transfer Transfer.readId])
      else
        match flash_flexspi_nor_enable_quad_mode env fuel (n1 + 1) with
        | none => none
        | some (r, n2, trQ) =>
          if r ≠ 0 then
            some (-EIOval, n2, trW ++ Event.reset :: Event.transfer Transfer.readId :: trQ)
          else
            match flash_flexspi_nor_wait_bus_busy env fuel n2 with
            | none => none
            | some (_, n3, trW2) =>
              some (0, n3, trW ++ Event.reset :: Event.transfer Transfer.readId ::
                (trQ ++ trW2 ++ [Event.reset]))

/-- Byte-for-byte copy of `len` bytes from the memory-mapped window
starting at `offset`, as `memcpy` performs it in
`flash_flexspi_nor_read`. -/
def memcpyWin (mem : Nat → Nat) : Nat → Nat → List Nat
  | _, 0 => []
  | offset, len + 1 => mem offset :: memcpyWin mem (offset + 1) len

/-- Embeds `flash_flexspi_nor_read` (source lines 350-358): a plain
memcpy from the AHB-mapped window; no transfer is issued, the cursor is
unchanged, and the function returns 0. -/
def flash_flexspi_nor_read (mem : Nat → Nat) (offset len n : Nat) :
    Int × Nat × List Event × List Nat :=
  (0, n, [], memcpyWin mem offset len)

/-- State-mutating primitives in the sense of the busy/reset protocol:
erase (chip, block, sector), page program, and write-status. -/
def isMutating : Transfer → Bool
  | Transfer.writeStatus _ => true
  | Transfer.eraseSector _ => true
  | Transfer.eraseBlock _ => true
  | Transfer.eraseChip => true
  | Transfer.pageProgram _ _ => true
  | _ => false

/-- Selects erase primitives out of a trace element. -/
def eraseSel : Event → Option Transfer
  | Event.transfer (Transfer.eraseSector o) => some (Transfer.eraseSector o)
  | Event.transfer (Transfer.eraseBlock o) => some (Transfer.eraseBlock o)
  | Event.transfer Transfer.eraseChip => some Transfer.eraseChip
  | _ => none

/-- The erase primitives a trace dispatches, in order. -/
def eraseTransfers (tr : List Event) : List Transfer :=
  tr.filterMap eraseSel

/-- Automaton state while scanning a trace for the busy/reset discipline:
`norm` outside any settling window, `awaitPoll` right after a mutating
dispatch (at least one ReadStatus1 poll is still owed), `awaitReset`
once polling has started (the reset is still owed). -/
inductive SettleState where
  | norm
  | awaitPoll
  | awaitReset
deriving DecidableEq

/-- Checks the busy/reset discipline over a trace: every mutating
dispatch must be followed by one or more ReadStatus1 polls and then a
controller reset before any further command is dispatched.  With
`allowOther = false` this is the literal discipline (no other command at
all before the reset); with `allowOther = true`, additional
status-register reads are tolerated inside the settling window.  A trace
that ends inside a window is accepted, since no further command was
dispatched. -/
def settleFrom (allowOther : Bool) : SettleState → List Event → Bool
  | _, [] => true
  | SettleState.norm, Event.reset :: rest => settleFrom allowOther SettleState.norm rest
  | SettleState.norm, Event.transfer t :: rest =>
      settleFrom allowOther (if isMutating t then SettleState.awaitPoll else SettleState.norm) rest
  | SettleState.awaitPoll, Event.transfer Transfer.readStatus1 :: rest =>
      settleFrom allowOther SettleState.awaitReset rest
  | SettleState.awaitPoll, Event.transfer Transfer.readStatus2 :: rest =>
      allowOther && settleFrom allowOther SettleState.awaitPoll rest
  | SettleState.awaitPoll, _ :: _ => false
  | SettleState.awaitReset, Event.transfer Transfer.readStatus1 :: rest =>
      settleFrom allowOther SettleState.awaitReset rest
  | SettleState.awaitReset, Event.transfer Transfer.readStatus2 :: rest =>
      allowOther && settleFrom allowOther SettleState.awaitReset rest
  | SettleState.awaitReset, Event.reset :: rest => settleFrom allowOther SettleState.norm rest
  | SettleState.awaitReset, _ :: _ => false

/-- The busy-wait loop emits only ReadStatus1 transfers: its trace is a
nonempty replicate of `rsEv`. -/
theorem wait_trace_rs1 (env : Env) (fuel n : Nat) (r : Int) (n' : Nat) (tr : List Event)
    (h : flash_flexspi_nor_wait_bus_busy env fuel n = some (r, n', tr)) :
    ∃ k, tr = List.replicate (k + 1) rsEv := by
  obtain ⟨k, _, _, _, htr, _⟩ := wait_bus_busy_shape env fuel n r n' tr h
  exact ⟨k, htr⟩

/-- A run of ReadStatus1 polls contributes no erase primitive. -/
theorem eraseTransfers_replicate_rs (k : Nat) :
    eraseTransfers (List.replicate k rsEv) = [] := by
  induction k with
  | zero => rfl
  | succ k ih =>
    rw [List.replicate_succ]
    show eraseTransfers (List.replicate k rsEv) = []
    exact ih

/-- Filtering erase primitives distributes over trace concatenation. -/
theorem eraseTransfers_append (a b : List Event) :
    eraseTransfers (a ++ b) = eraseTransfers a ++ eraseTransfers b := by
  simp [eraseTransfers, List.filterMap_append]

/-- Every chunk pair produced by the write loop is at least one byte
long and fits inside the part of the page that starts at its offset. -/
theorem writeChunksF_mem :
    ∀ fuel offset len o l, (o, l) ∈ writeChunksF fuel offset len →
      0 < l ∧ l ≤ SPI_NOR_PAGE_SIZE - o % SPI_NOR_PAGE_SIZE := by
  intro fuel
  induction fuel with
  | zero => intro offset len o l h; simp [writeChunksF] at h
  | succ fuel ih =>
    intro offset len o l h
    unfold writeChunksF at h
    by_cases hz : len = 0
    · rw [if_pos hz] at h; simp at h
    · rw [if_neg hz] at h
      simp only [List.mem_cons] at h
      rcases h with h | h
      · obtain ⟨ho, hl⟩ := Prod.mk.injEq .. ▸ h
        have hmod : offset % SPI_NOR_PAGE_SIZE < SPI_NOR_PAGE_SIZE :=
          Nat.mod_lt _ (by simp [SPI_NOR_PAGE_SIZE])
        subst ho
        have hlen : 0 < len := Nat.pos_of_ne_zero hz
        constructor
        · rw [hl]; simp only [lt_min_iff]
          exact ⟨by omega, hlen⟩
        · rw [hl]; exact min_le_left _ _
      · exact ih _ _ o l h

/-- The write-chunk loop always reports success, whatever the
environment answers. -/
theorem runWriteChunks_ret (env : Env) (fuel : Nat) :
    ∀ chunks n r n' tr, runWriteChunks env fuel chunks n = some (r, n', tr) → r = 0 := by
  intro chunks
  induction chunks with
  | nil => intro n r n' tr h; simp [runWriteChunks] at h; exact h.1.symm
  | cons c rest ih =>
    obtain ⟨o, l⟩ := c
    intro n r n' tr h
    unfold runWriteChunks at h
    cases hw : flash_flexspi_nor_wait_bus_busy env fuel (n + 2) with
    | none => rw [hw] at h; simp at h
    | some v =>
      obtain ⟨w, n3, trW⟩ := v
      rw [hw] at h
      dsimp only at h
      cases hrec : runWriteChunks env fuel rest n3 with
      | none => rw [hrec] at h; simp at h
      | some v2 =>
        obtain ⟨r0, n4, tr0⟩ := v2
        rw [hrec] at h
        simp only [Option.some.injEq, Prod.mk.injEq] at h
        rw [← h.1]
        exact ih n3 r0 n4 tr0 hrec

/-- Every page-program transfer the write-chunk loop dispatches comes
from its chunk list, with the same offset and length. -/
theorem runWriteChunks_pp (env : Env) (fuel : Nat) :
    ∀ chunks n r n' tr, runWriteChunks env fuel chunks n = some (r, n', tr) →
      ∀ o l, Event.transfer (Transfer.pageProgram o l) ∈ tr → (o, l) ∈ chunks := by
  intro chunks
  induction chunks with
  | nil =>
    intro n r n' tr h o l hm
    simp [runWriteChunks] at h
    rw [h.2.2] at hm
    simp at hm
  | cons c rest ih =>
    obtain ⟨co, cl⟩ := c
    intro n r n' tr h o l hm
    unfold runWriteChunks at h
    cases hw : flash_flexspi_nor_wait_bus_busy env fuel (n + 2) with
    | none => rw [hw] at h; simp at h
    | some v =>
      obtain ⟨w, n3, trW⟩ := v
      rw [hw] at h
      dsimp only at h
      cases hrec : runWriteChunks env fuel rest n3 with
      | none => rw [hrec] at h; simp at h
      | some v2 =>
        obtain ⟨r0, n4, tr0⟩ := v2
        rw [hrec] at h
        simp only [Option.some.injEq, Prod.mk.injEq] at h
        rw [← h.2.2] at hm
        rcases List.mem_cons.mp hm with h1 | hm2
        · exact absurd h1 (by simp)
        rcases List.mem_cons.mp hm2 with h2 | hm3
        · simp only [Event.transfer.injEq, Transfer.pageProgram.injEq] at h2
          simp [h2.1, h2.2]
        rcases List.mem_append.mp hm3 with h3 | hm4
        · exfalso
          obtain ⟨k, htrW⟩ := wait_trace_rs1 env fuel (n + 2) w n3 trW hw
          rw [htrW] at h3
          have h3' := List.eq_of_mem_replicate h3
          simp [rsEv] at h3'
        rcases List.mem_cons.mp hm4 with h4 | hm5
        · exact absurd h4 (by simp)
        · exact List.mem_cons_of_mem _ (ih n3 r0 n4 tr0 hrec o l hm5)

/-- Write-enable events contribute no erase primitive. -/
theorem eraseTransfers_cons_we (X : List Event) :
    eraseTransfers (Event.transfer Transfer.writeEnable :: X) = eraseTransfers X := rfl

/-- Reset events contribute no erase primitive. -/
theorem eraseTransfers_cons_reset (X : List Event) :
    eraseTransfers (Event.reset :: X) = eraseTransfers X := rfl

/-- A pending run of ReadStatus1 polls followed by a reset contributes no
erase primitive. -/
theorem settleFrom_replicate_rs (a : Bool) :
    ∀ (k : Nat) (rest : List Event),
      settleFrom a SettleState.awaitReset (List.replicate k rsEv ++ rest) =
        settleFrom a SettleState.awaitReset rest := by
  intro k
  induction k with
  | zero => intro rest; rfl
  | succ k ih =>
    intro rest
    rw [List.replicate_succ]
    show settleFrom a SettleState.awaitReset (List.replicate k rsEv ++ rest) =
      settleFrom a SettleState.awaitReset rest
    exact ih rest

/-- Scanning one full write-enable / mutating-dispatch / polls / reset
group leaves the discipline checker back in the normal state. -/
theorem settleFrom_block (a : Bool) (mt : Transfer) (hmut : isMutating mt = true)
    (k : Nat) (rest : List Event) :
    settleFrom a SettleState.norm (Event.transfer Transfer.writeEnable ::
        Event.transfer mt :: (List.replicate (k + 1) rsEv ++ Event.reset :: rest)) =
      settleFrom a SettleState.norm rest := by
  rw [List.replicate_succ]
  show settleFrom a (if isMutating mt then SettleState.awaitPoll else SettleState.norm)
    (rsEv :: (List.replicate k rsEv ++ Event.reset :: rest)) =
    settleFrom a SettleState.norm rest
  rw [hmut]
  show settleFrom a SettleState.awaitReset (List.replicate k rsEv ++ Event.reset :: rest) =
    settleFrom a SettleState.norm rest
  rw [settleFrom_replicate_rs]
  rfl

/-- Traces of the write-chunk loop obey the busy/reset discipline, even
in its literal form (no other command before the reset). -/
theorem runWriteChunks_settle (env : Env) (fuel : Nat) (a : Bool) :
    ∀ chunks n r n' tr, runWriteChunks env fuel chunks n = some (r, n', tr) →
      settleFrom a SettleState.norm tr = true := by
  intro chunks
  induction chunks with
  | nil =>
    intro n r n' tr h
    simp [runWriteChunks] at h
    rw [h.2.2]
    rfl
  | cons c rest ih =>
    obtain ⟨co, cl⟩ := c
    intro n r n' tr h
    unfold runWriteChunks at h
    cases hw : flash_flexspi_nor_wait_bus_busy env fuel (n + 2) with
    | none => rw [hw] at h; simp at h
    | some v =>
      obtain ⟨w, n3, trW⟩ := v
      rw [hw] at h
      dsimp only at h
      cases hrec : runWriteChunks env fuel rest n3 with
      | none => rw [hrec] at h; simp at h
      | some v2 =>
        obtain ⟨r0, n4, tr0⟩ := v2
        rw [hrec] at h
        simp only [Option.some.injEq, Prod.mk.injEq] at h
        rw [← h.2.2]
        obtain ⟨k, htrW⟩ := wait_trace_rs1 env fuel (n + 2) w n3 trW hw
        rw [htrW, settleFrom_block a (Transfer.pageProgram co cl) rfl k tr0]
        exact ih n3 r0 n4 tr0 hrec

/-- Filtering erase primitives out of a cons prepends whatever the
selector yields on the head. -/
theorem eraseTransfers_cons (e : Event) (X : List Event) :
    eraseTransfers (e :: X) = (eraseSel e).toList ++ eraseTransfers X := by
  cases he : eraseSel e <;> simp [eraseTransfers, List.filterMap_cons, he]

/-- The erase loop issues exactly `count` erase primitives, in order, at
offsets advancing by `stride` from the starting offset. -/
theorem eraseLoop_events (env : Env) (fuel : Nat) (mk : Nat → Transfer) (stride : Nat)
    (hmk : ∀ o, eraseSel (Event.transfer (mk o)) = some (mk o)) :
    ∀ count offset n n' tr, eraseLoop env fuel mk stride count offset n = some (n', tr) →
      eraseTransfers tr = (List.range count).map (fun i => mk (offset + stride * i)) := by
  intro count
  induction count with
  | zero =>
    intro offset n n' tr h
    obtain ⟨h1, h2⟩ : n = n' ∧ [] = tr := by simpa [eraseLoop] using h
    rw [← h2]
    rfl
  | succ count ih =>
    intro offset n n' tr h
    unfold eraseLoop at h
    cases hw : flash_flexspi_nor_wait_bus_busy env fuel (n + 2) with
    | none => rw [hw] at h; simp at h
    | some v =>
      obtain ⟨w, n3, trW⟩ := v
      rw [hw] at h
      dsimp only at h
      cases hrec : eraseLoop env fuel mk stride count (offset + stride) n3 with
      | none => rw [hrec] at h; simp at h
      | some v2 =>
        obtain ⟨n4, trR⟩ := v2
        rw [hrec] at h
        simp only [Option.some.injEq, Prod.mk.injEq] at h
        rw [← h.2]
        obtain ⟨k, htrW⟩ := wait_trace_rs1 env fuel (n + 2) w n3 trW hw
        rw [htrW, eraseTransfers_cons_we]
        have hstep : eraseTransfers (Event.transfer (mk offset) ::
            (List.replicate (k + 1) rsEv ++ Event.reset :: trR)) =
            mk offset :: eraseTransfers trR := by
          rw [eraseTransfers_cons, hmk offset, eraseTransfers_append,
            eraseTransfers_replicate_rs, eraseTransfers_cons_reset]
          rfl
        rw [hstep, ih (offset + stride) n3 n4 trR hrec]
        rw [List.range_succ_eq_map, List.map_cons, List.map_map]
        have h0 : mk offset = mk (offset + stride * 0) := by
          rw [Nat.mul_zero, Nat.add_zero]
        have h1 : List.map (fun i => mk (offset + stride + stride * i)) (List.range count) =
            List.map ((fun i => mk (offset + stride * i)) ∘ Nat.succ) (List.range count) := by
          apply List.map_congr_left
          intro i _
          show mk (offset + stride + stride * i) = mk (offset + stride * Nat.succ i)
          have harg : offset + stride + stride * i = offset + stride * Nat.succ i := by
            rw [Nat.mul_succ]; omega
          rw [harg]
        rw [h0, h1]

/-- Traces of the erase loop obey the busy/reset discipline in its
literal form, provided the dispatched primitive is mutating. -/
theorem eraseLoop_settle (env : Env) (fuel : Nat) (mk : Nat → Transfer) (stride : Nat)
    (a : Bool) (hmut : ∀ o, isMutating (mk o) = true) :
    ∀ count offset n n' tr, eraseLoop env fuel mk stride count offset n = some (n', tr) →
      settleFrom a SettleState.norm tr = true := by
  intro count
  induction count with
  | zero =>
    intro offset n n' tr h
    obtain ⟨h1, h2⟩ : n = n' ∧ [] = tr := by simpa [eraseLoop] using h
    rw [← h2]
    rfl
  | succ count ih =>
    intro offset n n' tr h
    unfold eraseLoop at h
    cases hw : flash_flexspi_nor_wait_bus_busy env fuel (n + 2) with
    | none => rw [hw] at h; simp at h
    | some v =>
      obtain ⟨w, n3, trW⟩ := v
      rw [hw] at h
      dsimp only at h
      cases hrec : eraseLoop env fuel mk stride count (offset + stride) n3 with
      | none => rw [hrec] at h; simp at h
      | some v2 =>
        obtain ⟨n4, trR⟩ := v2
        rw [hrec] at h
        simp only [Option.some.injEq, Prod.mk.injEq] at h
        rw [← h.2]
        obtain ⟨k, htrW⟩ := wait_trace_rs1 env fuel (n + 2) w n3 trW hw
        rw [htrW, settleFrom_block a _ (hmut offset) k trR]
        exact ih (offset + stride) n3 n4 trR hrec

/-- Length of the memory-window copy. -/
theorem memcpyWin_length (mem : Nat → Nat) : ∀ len offset, (memcpyWin mem offset len).length = len := by
  intro len
  induction len with
  | zero => intro offset; rfl
  | succ len ih => intro offset; simp [memcpyWin, ih]

/-- Each byte of the memory-window copy comes from the mapped window at
the corresponding address. -/
theorem memcpyWin_get (mem : Nat → Nat) : ∀ len offset i, i < len →
    (memcpyWin mem offset len)[i]? = some (mem (offset + i)) := by
  intro len
  induction len with
  | zero => intro offset i hi; omega
  | succ len ih =>
    intro offset i hi
    cases i with
    | zero => simp [memcpyWin]
    | succ i' =>
      rw [show memcpyWin mem offset (len + 1) =
        mem offset :: memcpyWin mem (offset + 1) len from rfl]
      rw [List.getElem?_cons_succ]
      rw [ih (offset + 1) i' (by omega)]
      have harg : offset + 1 + i' = offset + (i' + 1) := by omega
      rw [harg]

/-- Environment in which every transfer succeeds and every status read
reports an idle device with quad mode not yet set. -/
def envIdle : Env := fun _ => ⟨0, 0⟩

/-- Environment in which every transfer succeeds and every status read
reports the value `0x02` (idle, quad-enable bit set). -/
def envQuad : Env := fun _ => ⟨0, 2⟩

/-- Environment in which every transfer fails with code `-5`. -/
def envFail : Env := fun _ => ⟨-5, 0⟩

/-- C1: for every offset and buffer length, every page-program transfer
the write path dispatches is nonempty, fits in the part of the page that
starts at its offset, and therefore covers a byte range lying entirely
within a single page: `chunk_start / page_size = (chunk_start +
chunk_len - 1) / page_size`. -/
theorem claim_C1_program_chunks_in_page (env : Env) (fuel offset len n : Nat) (r : Int)
    (n' : Nat) (tr : List Event)
    (h : flash_flexspi_nor_write env fuel offset len n = some (r, n', tr))
    (o l : Nat) (hm : Event.transfer (Transfer.pageProgram o l) ∈ tr) :
    0 < l ∧ l ≤ SPI_NOR_PAGE_SIZE - o % SPI_NOR_PAGE_SIZE ∧
      o / SPI_NOR_PAGE_SIZE = (o + l - 1) / SPI_NOR_PAGE_SIZE := by
  have hc := runWriteChunks_pp env fuel (writeChunks offset len) n r n' tr h o l hm
  have hb := writeChunksF_mem len offset len o l hc
  refine ⟨hb.1, hb.2, ?_⟩
  have hb1 := hb.1
  have hb2 := hb.2
  simp only [SPI_NOR_PAGE_SIZE] at hb2 ⊢
  omega

/-- Witness for C1 at a concrete split: writing 200 bytes at offset 100
produces the chunk `(100, 156)`, which stays inside the first page. -/
theorem claim_C1_witness :
    0 < 156 ∧ 156 ≤ SPI_NOR_PAGE_SIZE - 100 % SPI_NOR_PAGE_SIZE ∧
      100 / SPI_NOR_PAGE_SIZE = (100 + 156 - 1) / SPI_NOR_PAGE_SIZE :=
  claim_C1_program_chunks_in_page envIdle 1 100 200 0 0 6
    [Event.transfer Transfer.writeEnable, Event.transfer (Transfer.pageProgram 100 156),
      rsEv, Event.reset, Event.transfer Transfer.writeEnable,
      Event.transfer (Transfer.pageProgram 256 44), rsEv, Event.reset]
    (by decide) 100 156 (by decide)

/-- C3: an erase request whose offset or size is not sector-aligned is
rejected with `-EINVAL`, with no transfer dispatched (empty trace) and
no state change (cursor unchanged). -/
theorem claim_C3_erase_misaligned_einval (env : Env) (fuel totalSize offset size n : Nat)
    (h : offset % SPI_NOR_SECTOR_SIZE ≠ 0 ∨ size % SPI_NOR_SECTOR_SIZE ≠ 0) :
    flash_flexspi_nor_erase env fuel totalSize offset size n = some (-EINVAL, n, []) := by
  unfold flash_flexspi_nor_erase
  rcases h with h | h
  · rw [if_pos h]
  · by_cases h2 : offset % SPI_NOR_SECTOR_SIZE ≠ 0
    · rw [if_pos h2]
    · rw [if_neg h2, if_pos h]

/-- Witness for C3 at offset 1, size 4096: the request is rejected
before any bus activity. -/
theorem claim_C3_witness :
    flash_flexspi_nor_erase envIdle 1 16777216 1 4096 0 = some (-EINVAL, 0, []) :=
  claim_C3_erase_misaligned_einval envIdle 1 16777216 1 4096 0 (Or.inl (by decide))

/-- C5 counterexample: in an environment in which every transfer fails
with `-5`, a one-byte write still returns 0 - the transport error of its
write-enable, page-program and status-read transfers is swallowed, not
returned to the caller. -/
theorem claim_C5_counterexample :
    (envFail 0).ret ≠ 0 ∧
      flash_flexspi_nor_write envFail 1 0 1 0 =
        some (0, 3, [Event.transfer Transfer.writeEnable,
          Event.transfer (Transfer.pageProgram 0 1), rsEv, Event.reset]) := by
  decide

/-- C5 (amended): transport errors in the write and erase loops are
ignored: a terminating write always returns 0; a terminating erase
returns 0 whenever both alignment checks pass, and `-EINVAL` with no
bus activity exactly when one fails. -/
theorem claim_C5_amended_errors_swallowed :
    (∀ env fuel offset len n r n' tr,
      flash_flexspi_nor_write env fuel offset len n = some (r, n', tr) → r = 0) ∧
    (∀ env fuel totalSize offset size n r n' tr,
      flash_flexspi_nor_erase env fuel totalSize offset size n = some (r, n', tr) →
        r = 0 ∨ (r = -EINVAL ∧ tr = [] ∧ n' = n ∧
          (offset % SPI_NOR_SECTOR_SIZE ≠ 0 ∨ size % SPI_NOR_SECTOR_SIZE ≠ 0))) := by
  constructor
  · intro env fuel offset len n r n' tr h
    exact runWriteChunks_ret env fuel (writeChunks offset len) n r n' tr h
  · intro env fuel totalSize offset size n r n' tr h
    unfold flash_flexspi_nor_erase at h
    by_cases h1 : offset % SPI_NOR_SECTOR_SIZE ≠ 0
    · rw [if_pos h1] at h
      simp only [Option.some.injEq, Prod.mk.injEq] at h
      exact Or.inr ⟨h.1.symm, h.2.2.symm, h.2.1.symm, Or.inl h1⟩
    · rw [if_neg h1] at h
      by_cases h2 : size % SPI_NOR_SECTOR_SIZE ≠ 0
      · rw [if_pos h2] at h
        simp only [Option.some.injEq, Prod.mk.injEq] at h
        exact Or.inr ⟨h.1.symm, h.2.2.symm, h.2.1.symm, Or.inr h2⟩
      · rw [if_neg h2] at h
        left
        by_cases hc : offset = 0 ∧ size = totalSize
        · rw [if_pos hc] at h
          cases hw : flash_flexspi_nor_wait_bus_busy env fuel (n + 2) with
          | none => rw [hw] at h; simp at h
          | some v =>
            obtain ⟨w, n3, trW⟩ := v
            rw [hw] at h
            dsimp only at h
            simp only [Option.some.injEq, Prod.mk.injEq] at h
            exact h.1.symm
        · rw [if_neg hc] at h
          by_cases hd : offset % SPI_NOR_BLOCK_SIZE = 0 ∧ size % SPI_NOR_BLOCK_SIZE = 0
          · rw [if_pos hd] at h
            cases hL : eraseLoop env fuel Transfer.eraseBlock SPI_NOR_BLOCK_SIZE
                (size / SPI_NOR_BLOCK_SIZE) offset n with
            | none => rw [hL] at h; simp at h
            | some v =>
              obtain ⟨n4, trL⟩ := v
              rw [hL] at h
              simp only [Option.some.injEq, Prod.mk.injEq] at h
              exact h.1.symm
          · rw [if_neg hd] at h
            cases hL : eraseLoop env fuel Transfer.eraseSector SPI_NOR_SECTOR_SIZE
                (size / SPI_NOR_SECTOR_SIZE) offset n with
            | none => rw [hL] at h; simp at h
            | some v =>
              obtain ⟨n4, trL⟩ := v
              rw [hL] at h
              simp only [Option.some.injEq, Prod.mk.injEq] at h
              exact h.1.symm

/-- Witness for the amended C5: the failing-environment write of the
counterexample indeed terminates with return value 0. -/
theorem claim_C5_witness :
    flash_flexspi_nor_write envFail 1 0 1 0 =
        some (0, 3, [Event.transfer Transfer.writeEnable,
          Event.transfer (Transfer.pageProgram 0 1), rsEv, Event.reset]) ∧
      (0 : Int) = 0 :=
  ⟨by decide,
    claim_C5_amended_errors_swallowed.1 envFail 1 0 1 0 0 3
      [Event.transfer Transfer.writeEnable, Event.transfer (Transfer.pageProgram 0 1),
        rsEv, Event.reset] (by decide)⟩

/-- C6: with page size 256, programming 300 bytes at offset 250 splits
into exactly the chunks (250, 6), (256, 256), (512, 38), in order, each
preceded by a write-enable and followed by a busy-wait poll and a
controller reset. -/
theorem claim_C6_concrete_split :
    flash_flexspi_nor_write envIdle 1 250 300 0 =
      some (0, 9, [Event.transfer Transfer.writeEnable,
        Event.transfer (Transfer.pageProgram 250 6), rsEv, Event.reset,
        Event.transfer Transfer.writeEnable,
        Event.transfer (Transfer.pageProgram 256 256), rsEv, Event.reset,
        Event.transfer Transfer.writeEnable,
        Event.transfer (Transfer.pageProgram 512 38), rsEv, Event.reset]) := by
  decide

/-- C7: a terminating busy-wait run consists only of ReadStatus1
dispatches; it returns 0 exactly when the decisive status read succeeded
with bit 0 clear, and a failing read's transport error is returned
immediately, with no further poll dispatched after it. -/
theorem claim_C7_wait_bus_busy_spec (env : Env) (fuel n : Nat) (r : Int) (n' : Nat)
    (tr : List Event)
    (h : flash_flexspi_nor_wait_bus_busy env fuel n = some (r, n', tr)) :
    ∃ k, k < fuel ∧
      (∀ j, j < k → (env (n + j)).ret = 0 ∧ (env (n + j)).status % 2 = 1) ∧
      n' = n + (k + 1) ∧
      tr = List.replicate (k + 1) rsEv ∧
      (((env (n + k)).ret = 0 ∧ r = 0 ∧ (env (n + k)).status % 2 = 0) ∨
        ((env (n + k)).ret ≠ 0 ∧ r = (env (n + k)).ret)) :=
  wait_bus_busy_shape env fuel n r n' tr h

/-- Witness for C7 on the immediately idle environment. -/
theorem claim_C7_witness :
    ∃ k, k < 1 ∧
      (∀ j, j < k → (envIdle (0 + j)).ret = 0 ∧ (envIdle (0 + j)).status % 2 = 1) ∧
      1 = 0 + (k + 1) ∧
      [rsEv] = List.replicate (k + 1) rsEv ∧
      (((envIdle (0 + k)).ret = 0 ∧ (0 : Int) = 0 ∧ (envIdle (0 + k)).status % 2 = 0) ∨
        ((envIdle (0 + k)).ret ≠ 0 ∧ (0 : Int) = (envIdle (0 + k)).ret)) :=
  claim_C7_wait_bus_busy_spec envIdle 1 0 0 1 [rsEv] (by decide)

/-- C9: the read path is a pure memory copy: it returns 0, leaves the
transfer cursor unchanged, dispatches no bus event, and its output
buffer holds exactly `len` bytes copied from the mapped window at
`offset`. -/
theorem claim_C9_read_pure_copy (mem : Nat → Nat) (offset len n : Nat) :
    (flash_flexspi_nor_read mem offset len n).1 = 0 ∧
      (flash_flexspi_nor_read mem offset len n).2.1 = n ∧
      (flash_flexspi_nor_read mem offset len n).2.2.1 = [] ∧
      (flash_flexspi_nor_read mem offset len n).2.2.2.length = len ∧
      ∀ i, i < len →
        (flash_flexspi_nor_read mem offset len n).2.2.2[i]? = some (mem (offset + i)) :=
  ⟨rfl, rfl, rfl, memcpyWin_length mem len offset, fun i hi => memcpyWin_get mem len offset i hi⟩

/-- Witness for C9 on the identity window at offset 5, length 3. -/
theorem claim_C9_witness :
    (flash_flexspi_nor_read (fun a => a) 5 3 7).1 = 0 ∧
      (flash_flexspi_nor_read (fun a => a) 5 3 7).2.1 = 7 ∧
      (flash_flexspi_nor_read (fun a => a) 5 3 7).2.2.1 = [] ∧
      (flash_flexspi_nor_read (fun a => a) 5 3 7).2.2.2.length = 3 ∧
      ∀ i, i < 3 →
        (flash_flexspi_nor_read (fun a => a) 5 3 7).2.2.2[i]? = some ((fun a => a) (5 + i)) :=
  claim_C9_read_pure_copy (fun a => a) 5 3 7

/-- C10: a zero-length write dispatches nothing at all and returns
success: the trace is empty and the transfer cursor is unchanged. -/
theorem claim_C10_zero_length_write (env : Env) (fuel offset n : Nat) :
    flash_flexspi_nor_write env fuel offset 0 n = some (0, n, []) := rfl

/-- C2: for every sector-aligned erase request, granularity selection is
deterministic with priority chip > block > sector: `(0, totalSize)`
dispatches exactly one chip erase; otherwise a block-aligned request
dispatches exactly `size / block_size` block erases at offsets advancing
by the block size; any other request dispatches `size / sector_size`
sector erases at offsets advancing by the sector size. -/
theorem claim_C2_erase_granularity (env : Env) (fuel totalSize offset size n : Nat) (r : Int)
    (n' : Nat) (tr : List Event)
    (ha : offset % SPI_NOR_SECTOR_SIZE = 0) (hb : size % SPI_NOR_SECTOR_SIZE = 0)
    (h : flash_flexspi_nor_erase env fuel totalSize offset size n = some (r, n', tr)) :
    (offset = 0 ∧ size = totalSize → eraseTransfers tr = [Transfer.eraseChip]) ∧
    (¬(offset = 0 ∧ size = totalSize) →
      offset % SPI_NOR_BLOCK_SIZE = 0 ∧ size % SPI_NOR_BLOCK_SIZE = 0 →
      eraseTransfers tr = (List.range (size / SPI_NOR_BLOCK_SIZE)).map
        (fun i => Transfer.eraseBlock (offset + SPI_NOR_BLOCK_SIZE * i))) ∧
    (¬(offset = 0 ∧ size = totalSize) →
      ¬(offset % SPI_NOR_BLOCK_SIZE = 0 ∧ size % SPI_NOR_BLOCK_SIZE = 0) →
      eraseTransfers tr = (List.range (size / SPI_NOR_SECTOR_SIZE)).map
        (fun i => Transfer.eraseSector (offset + SPI_NOR_SECTOR_SIZE * i))) := by
  unfold flash_flexspi_nor_erase at h
  rw [if_neg (by simp [ha]), if_neg (by simp [hb])] at h
  by_cases hc : offset = 0 ∧ size = totalSize
  · rw [if_pos hc] at h
    refine ⟨fun _ => ?_, fun hnc => absurd hc hnc, fun hnc => absurd hc hnc⟩
    cases hw : flash_flexspi_nor_wait_bus_busy env fuel (n + 2) with
    | none => rw [hw] at h; simp at h
    | some v =>
      obtain ⟨w, n3, trW⟩ := v
      rw [hw] at h
      dsimp only at h
      simp only [Option.some.injEq, Prod.mk.injEq] at h
      rw [← h.2.2]
      obtain ⟨k, htrW⟩ := wait_trace_rs1 env fuel (n + 2) w n3 trW hw
      rw [htrW, eraseTransfers_cons_we, eraseTransfers_cons, eraseTransfers_append,
        eraseTransfers_replicate_rs]
      rfl
  · rw [if_neg hc] at h
    by_cases hd : offset % SPI_NOR_BLOCK_SIZE = 0 ∧ size % SPI_NOR_BLOCK_SIZE = 0
    · rw [if_pos hd] at h
      refine ⟨fun hcc => absurd hcc hc, fun _ _ => ?_, fun _ hdd => absurd hd hdd⟩
      cases hL : eraseLoop env fuel Transfer.eraseBlock SPI_NOR_BLOCK_SIZE
          (size / SPI_NOR_BLOCK_SIZE) offset n with
      | none => rw [hL] at h; simp at h
      | some v =>
        obtain ⟨n4, trL⟩ := v
        rw [hL] at h
        simp only [Option.some.injEq, Prod.mk.injEq] at h
        rw [← h.2.2]
        exact eraseLoop_events env fuel Transfer.eraseBlock SPI_NOR_BLOCK_SIZE
          (fun o => rfl) (size / SPI_NOR_BLOCK_SIZE) offset n n4 trL hL
    · rw [if_neg hd] at h
      refine ⟨fun hcc => absurd hcc hc, fun _ hdd => absurd hdd hd, fun _ _ => ?_⟩
      cases hL : eraseLoop env fuel Transfer.eraseSector SPI_NOR_SECTOR_SIZE
          (size / SPI_NOR_SECTOR_SIZE) offset n with
      | none => rw [hL] at h; simp at h
      | some v =>
        obtain ⟨n4, trL⟩ := v
        rw [hL] at h
        simp only [Option.some.injEq, Prod.mk.injEq] at h
        rw [← h.2.2]
        exact eraseLoop_events env fuel Transfer.eraseSector SPI_NOR_SECTOR_SIZE
          (fun o => rfl) (size / SPI_NOR_SECTOR_SIZE) offset n n4 trL hL

/-- Witness for C2 on a full-device erase of a 4096-byte device: exactly
one chip-erase primitive is dispatched. -/
theorem claim_C2_witness :
    ((0 : Nat) = 0 ∧ (4096 : Nat) = 4096 →
      eraseTransfers [Event.transfer Transfer.writeEnable,
        Event.transfer Transfer.eraseChip, rsEv, Event.reset] = [Transfer.eraseChip]) ∧
    (¬((0 : Nat) = 0 ∧ (4096 : Nat) = 4096) →
      0 % SPI_NOR_BLOCK_SIZE = 0 ∧ 4096 % SPI_NOR_BLOCK_SIZE = 0 →
      eraseTransfers [Event.transfer Transfer.writeEnable,
        Event.transfer Transfer.eraseChip, rsEv, Event.reset] =
        (List.range (4096 / SPI_NOR_BLOCK_SIZE)).map
          (fun i => Transfer.eraseBlock (0 + SPI_NOR_BLOCK_SIZE * i))) ∧
    (¬((0 : Nat) = 0 ∧ (4096 : Nat) = 4096) →
      ¬(0 % SPI_NOR_BLOCK_SIZE = 0 ∧ 4096 % SPI_NOR_BLOCK_SIZE = 0) →
      eraseTransfers [Event.transfer Transfer.writeEnable,
        Event.transfer Transfer.eraseChip, rsEv, Event.reset] =
        (List.range (4096 / SPI_NOR_SECTOR_SIZE)).map
          (fun i => Transfer.eraseSector (0 + SPI_NOR_SECTOR_SIZE * i))) :=
  claim_C2_erase_granularity envIdle 1 4096 0 4096 0 0 3
    [Event.transfer Transfer.writeEnable, Event.transfer Transfer.eraseChip, rsEv, Event.reset]
    (by decide) (by decide) (by decide)

/-- C4: if the read-status-2 probe after the status write yields any
value other than 0x02, the quad-mode handshake returns `-EIO` right
after the probe; and a successful bring-up requires the handshake to
have returned 0, so a failed handshake prevents the device from becoming
ready. -/
theorem claim_C4_quad_enable_verify :
    (∀ env fuel n w n3 trW, (env (n + 1)).ret = 0 →
      flash_flexspi_nor_wait_bus_busy env fuel (n + 2) = some (w, n3, trW) →
      (env n3).status ≠ 2 →
      flash_flexspi_nor_enable_quad_mode env fuel n =
        some (-EIOval, n3 + 1, Event.transfer Transfer.writeEnable ::
          Event.transfer (Transfer.writeStatus 2) ::
            (trW ++ [Event.transfer Transfer.readStatus2]))) ∧
    (∀ env fuel controllerReady configOk n n' tr,
      flash_flexspi_nor_init env fuel controllerReady configOk n = some (0, n', tr) →
      ∃ w n1 trW rq nq trq,
        flash_flexspi_nor_wait_bus_busy env fuel n = some (w, n1, trW) ∧
        flash_flexspi_nor_enable_quad_mode env fuel (n1 + 1) = some (rq, nq, trq) ∧
        rq = 0) := by
  constructor
  · intro env fuel n w n3 trW hWS hwait hprobe
    unfold flash_flexspi_nor_enable_quad_mode
    rw [if_neg (by simp [hWS]), hwait]
    dsimp only
    rw [if_pos hprobe]
  · intro env fuel controllerReady configOk n n' tr h
    unfold flash_flexspi_nor_init at h
    cases controllerReady with
    | false => simp at h; exact absurd h.1 (by decide)
    | true =>
      rw [if_neg (by simp)] at h
      cases configOk with
      | false => simp at h; exact absurd h.1 (by decide)
      | true =>
        rw [if_neg (by simp)] at h
        cases hw : flash_flexspi_nor_wait_bus_busy env fuel n with
        | none => rw [hw] at h; simp at h
        | some v =>
          obtain ⟨w, n1, trW⟩ := v
          rw [hw] at h
          dsimp only at h
          by_cases hid : (env n1).ret ≠ 0
          · rw [if_pos hid] at h
            simp only [Option.some.injEq, Prod.mk.injEq] at h
            exact absurd h.1 (by decide)
          · rw [if_neg hid] at h
            cases hq : flash_flexspi_nor_enable_quad_mode env fuel (n1 + 1) with
            | none => rw [hq] at h; simp at h
            | some v2 =>
              obtain ⟨rq, nq, trq⟩ := v2
              rw [hq] at h
              dsimp only at h
              by_cases hrq : rq ≠ 0
              · rw [if_pos hrq] at h
                simp only [Option.some.injEq, Prod.mk.injEq] at h
                exact absurd h.1 (by decide)
              · push_neg at hrq
                exact ⟨w, n1, trW, rq, nq, trq, rfl, hq, hrq⟩

/-- Witness for C4: in the never-quad environment the handshake fails
with `-EIO` after the probe; in the quad environment bring-up succeeds
and the embedded handshake indeed returned 0. -/
theorem claim_C4_witness :
    flash_flexspi_nor_enable_quad_mode envIdle 1 0 =
      some (-EIOval, 4, Event.transfer Transfer.writeEnable ::
        Event.transfer (Transfer.writeStatus 2) ::
          ([rsEv] ++ [Event.transfer Transfer.readStatus2])) ∧
    (∃ w n1 trW rq nq trq,
      flash_flexspi_nor_wait_bus_busy envQuad 4 0 = some (w, n1, trW) ∧
      flash_flexspi_nor_enable_quad_mode envQuad 4 (n1 + 1) = some (rq, nq, trq) ∧
      rq = 0) :=
  ⟨claim_C4_quad_enable_verify.1 envIdle 1 0 0 3 [rsEv] (by decide) (by decide) (by decide),
    claim_C4_quad_enable_verify.2 envQuad 4 true true 0 8
      [rsEv, Event.reset, Event.transfer Transfer.readId,
        Event.transfer Transfer.writeEnable, Event.transfer (Transfer.writeStatus 2),
        rsEv, Event.transfer Transfer.readStatus2, rsEv, Event.reset, rsEv, Event.reset]
      (by decide)⟩

/-- C8 counterexample: in the quad-mode handshake the write-status
dispatch is followed by a busy-wait but the read-status-2 command is
dispatched before the controller reset, so the literal discipline
(mutating dispatch, polls, reset, with no other command in between) is
violated by the handshake's own successful trace. -/
theorem claim_C8_counterexample :
    flash_flexspi_nor_enable_quad_mode envQuad 1 0 =
      some (0, 5, [Event.transfer Transfer.writeEnable,
        Event.transfer (Transfer.writeStatus 2), rsEv,
        Event.transfer Transfer.readStatus2, rsEv, Event.reset]) ∧
    settleFrom false SettleState.norm [Event.transfer Transfer.writeEnable,
      Event.transfer (Transfer.writeStatus 2), rsEv,
      Event.transfer Transfer.readStatus2, rsEv, Event.reset] = false := by
  decide

/-- C8 (amended): traces of the write and erase paths satisfy the
busy/reset discipline literally: every mutating dispatch is followed by
one or more ReadStatus1 polls and then a reset before any further
command.  The quad-mode handshake satisfies the discipline only up to
status-register reads: its read-status-2 verification probe (and second
busy-wait) occur between the write-status's polls and the reset.  The
write-status primitive alone dispatches nothing after its transfer. -/
theorem claim_C8_amended_settle :
    (∀ (a : Bool) env fuel offset len n r n' tr,
      flash_flexspi_nor_write env fuel offset len n = some (r, n', tr) →
      settleFrom a SettleState.norm tr = true) ∧
    (∀ (a : Bool) env fuel totalSize offset size n r n' tr,
      flash_flexspi_nor_erase env fuel totalSize offset size n = some (r, n', tr) →
      settleFrom a SettleState.norm tr = true) ∧
    (∀ env fuel n r n' tr,
      flash_flexspi_nor_enable_quad_mode env fuel n = some (r, n', tr) →
      settleFrom true SettleState.norm tr = true) ∧
    (∀ (a : Bool) env size n r n' tr,
      flash_flexspi_nor_write_status env size n = (r, n', tr) →
      settleFrom a SettleState.norm tr = true) := by
  refine ⟨?_, ?_, ?_, ?_⟩
  · intro a env fuel offset len n r n' tr h
    exact runWriteChunks_settle env fuel a (writeChunks offset len) n r n' tr h
  · intro a env fuel totalSize offset size n r n' tr h
    unfold flash_flexspi_nor_erase at h
    by_cases h1 : offset % SPI_NOR_SECTOR_SIZE ≠ 0
    · rw [if_pos h1] at h
      simp only [Option.some.injEq, Prod.mk.injEq] at h
      rw [← h.2.2]
      rfl
    · rw [if_neg h1] at h
      by_cases h2 : size % SPI_NOR_SECTOR_SIZE ≠ 0
      · rw [if_pos h2] at h
        simp only [Option.some.injEq, Prod.mk.injEq] at h
        rw [← h.2.2]
        rfl
      · rw [if_neg h2] at h
        by_cases hc : offset = 0 ∧ size = totalSize
        · rw [if_pos hc] at h
          cases hw : flash_flexspi_nor_wait_bus_busy env fuel (n + 2) with
          | none => rw [hw] at h; simp at h
          | some v =>
            obtain ⟨w, n3, trW⟩ := v
            rw [hw] at h
            dsimp only at h
            simp only [Option.some.injEq, Prod.mk.injEq] at h
            rw [← h.2.2]
            obtain ⟨k, htrW⟩ := wait_trace_rs1 env fuel (n + 2) w n3 trW hw
            rw [htrW, settleFrom_block a Transfer.eraseChip rfl k []]
            rfl
        · rw [if_neg hc] at h
          by_cases hd : offset % SPI_NOR_BLOCK_SIZE = 0 ∧ size % SPI_NOR_BLOCK_SIZE = 0
          · rw [if_pos hd] at h
            cases hL : eraseLoop env fuel Transfer.eraseBlock SPI_NOR_BLOCK_SIZE
                (size / SPI_NOR_BLOCK_SIZE) offset n with
            | none => rw [hL] at h; simp at h
            | some v =>
              obtain ⟨n4, trL⟩ := v
              rw [hL] at h
              simp only [Option.some.injEq, Prod.mk.injEq] at h
              rw [← h.2.2]
              exact eraseLoop_settle env fuel Transfer.eraseBlock SPI_NOR_BLOCK_SIZE a
                (fun o => rfl) (size / SPI_NOR_BLOCK_SIZE) offset n n4 trL hL
          · rw [if_neg hd] at h
            cases hL : eraseLoop env fuel Transfer.eraseSector SPI_NOR_SECTOR_SIZE
                (size / SPI_NOR_SECTOR_SIZE) offset n with
            | none => rw [hL] at h; simp at h
            | some v =>
              obtain ⟨n4, trL⟩ := v
              rw [hL] at h
              simp only [Option.some.injEq, Prod.mk.injEq] at h
              rw [← h.2.2]
              exact eraseLoop_settle env fuel Transfer.eraseSector SPI_NOR_SECTOR_SIZE a
                (fun o => rfl) (size / SPI_NOR_SECTOR_SIZE) offset n n4 trL hL
  · intro env fuel n r n' tr h
    unfold flash_flexspi_nor_enable_quad_mode at h
    by_cases hws : (env (n + 1)).ret ≠ 0
    · rw [if_pos hws] at h
      simp only [Option.some.injEq, Prod.mk.injEq] at h
      rw [← h.2.2]
      rfl
    · rw [if_neg hws] at h
      cases hw1 : flash_flexspi_nor_wait_bus_busy env fuel (n + 2) with
      | none => rw [hw1] at h; simp at h
      | some v =>
        obtain ⟨w1, n3, trW1⟩ := v
        rw [hw1] at h
        dsimp only at h
        obtain ⟨k1, htrW1⟩ := wait_trace_rs1 env fuel (n + 2) w1 n3 trW1 hw1
        by_cases hp : (env n3).status ≠ 2
        · rw [if_pos hp] at h
          simp only [Option.some.injEq, Prod.mk.injEq] at h
          rw [← h.2.2, htrW1, List.replicate_succ]
          show settleFrom true SettleState.awaitReset
            (List.replicate k1 rsEv ++ [Event.transfer Transfer.readStatus2]) = true
          rw [settleFrom_replicate_rs]
          rfl
        · rw [if_neg hp] at h
          cases hw2 : flash_flexspi_nor_wait_bus_busy env fuel (n3 + 1) with
          | none => rw [hw2] at h; simp at h
          | some v2 =>
            obtain ⟨w2, n4, trW2⟩ := v2
            rw [hw2] at h
            dsimp only at h
            simp only [Option.some.injEq, Prod.mk.injEq] at h
            rw [← h.2.2, htrW1, List.replicate_succ]
            obtain ⟨k2, htrW2⟩ := wait_trace_rs1 env fuel (n3 + 1) w2 n4 trW2 hw2
            rw [htrW2]
            show settleFrom true SettleState.awaitReset
              (List.replicate k1 rsEv ++ Event.transfer Transfer.readStatus2 ::
                (List.replicate (k2 + 1) rsEv ++ [Event.reset])) = true
            rw [settleFrom_replicate_rs, List.replicate_succ]
            show settleFrom true SettleState.awaitReset
              (List.replicate k2 rsEv ++ [Event.reset]) = true
            rw [settleFrom_replicate_rs]
            rfl
  · intro a env size n r n' tr h
    unfold flash_flexspi_nor_write_status at h
    by_cases hs : size > 2
    · rw [if_pos hs] at h
      simp only [Prod.mk.injEq] at h
      rw [← h.2.2]
      rfl
    · rw [if_neg hs] at h
      simp only [Prod.mk.injEq] at h
      rw [← h.2.2]
      rfl

/-- Witness for the amended C8 on a concrete two-sector erase trace. -/
theorem claim_C8_witness :
    flash_flexspi_nor_erase envIdle 1 999999 4096 8192 0 =
        some (0, 6, [Event.transfer Transfer.writeEnable,
          Event.transfer (Transfer.eraseSector 4096), rsEv, Event.reset,
          Event.transfer Transfer.writeEnable,
          Event.transfer (Transfer.eraseSector 8192), rsEv, Event.reset]) ∧
      settleFrom false SettleState.norm [Event.transfer Transfer.writeEnable,
        Event.transfer (Transfer.eraseSector 4096), rsEv, Event.reset,
        Event.transfer Transfer.writeEnable,
        Event.transfer (Transfer.eraseSector 8192), rsEv, Event.reset] = true :=
  ⟨by decide,
    claim_C8_amended_settle.2.1 false envIdle 1 999999 4096 8192 0 0 6
      [Event.transfer Transfer.writeEnable, Event.transfer (Transfer.eraseSector 4096),
        rsEv, Event.reset, Event.transfer Transfer.writeEnable,
        Event.transfer (Transfer.eraseSector 8192), rsEv, Event.reset] (by decide)⟩

end Flash
